import Mathlib

/-!
Verification development for the PipeWire core node scheduler
(`src/pipewire/node.c`).  The definitions below are a shallow embedding of
the data model and the operations of `node.c`; machine integers are
modelled as `Int`/`Nat` (with explicit `% 2^32` where 32-bit unsigned
wraparound matters), C function calls into external interfaces are
modelled as emitted events on a trace, and code paths that dereference an
absent backend (a NULL `node->node`) are modelled by `Option` (`none`
meaning undefined behaviour).
-/

namespace PW

/-! ## Node states

Modelled from the spec: state ∈ {creating, suspended, idle, running,
error}.  The numeric values (used by the ordered comparisons
`info.state <= PW_NODE_STATE_IDLE` in `pause_node` and
`info.state >= PW_NODE_STATE_RUNNING` in `start_node`) follow the
`enum pw_node_state` declaration of `pipewire/node.h`, which is not under
`src/`: error = -1, creating = 0, suspended = 1, idle = 2, running = 3. -/

inductive PwNodeState where
  | error
  | creating
  | suspended
  | idle
  | running
deriving DecidableEq, Repr

def PwNodeState.val : PwNodeState → Int
  | .error => -1
  | .creating => 0
  | .suspended => 1
  | .idle => 2
  | .running => 3

/-! ## Activation record

The activation record layout is `struct pw_node_activation` from
`pipewire/private.h`, which is not under `src/`; it is modelled from the
spec: an array of (pending, required) counter pairs (the code uses
`state[0]`), `status` ∈ {not-triggered, triggered, awake, finished},
timestamps `signal_time`, `awake_time`, `finish_time`, and a `running`
flag owned by the driver. -/

inductive ActStatus where
  | notTriggered
  | triggered
  | awake
  | finished
deriving DecidableEq, Repr

structure ActivationState where
  status : Int
  pending : Int
  required : Int
deriving DecidableEq, Repr

structure Activation where
  state0 : ActivationState
  signalTime : Nat
  awakeTime : Nat
  finishTime : Nat
  status : ActStatus
  running : Bool
deriving DecidableEq, Repr

/-- Modelled from the spec: `reset(state)` of §4.1 —
`pw_node_activation_state_reset` of `pipewire/private.h` (not under
`src/`) sets `pending := required`. -/
def pw_node_activation_state_reset (s : ActivationState) : ActivationState :=
  { s with pending := s.required }

/-- Modelled from the spec: `dec_pending(state) -> bool` of §4.1 —
`pw_node_activation_state_dec` of `pipewire/private.h` (not under `src/`)
atomically decrements `pending` and returns true exactly when it became
zero.  The atomic histories are modelled as their sequentialisation: each
caller's decrement is one application of this function. -/
def pw_node_activation_state_dec (s : ActivationState) : ActivationState × Bool :=
  let s2 := { s with pending := s.pending - 1 }
  (s2, s2.pending == 0)

/-! ## Target entries and the realtime node model

A target entry is a node's participation in a driver's execution list
(`struct pw_node_target`).  Signal invocations (`t->signal(t->data)`) are
modelled as emitted `REvent.signal` events: the signalled node's own
processing runs from its event handler (spec §4.5 step 5) and is not part
of the caller's step. -/

structure Target where
  id : Nat
  activation : Activation
deriving DecidableEq, Repr

/-- Trace events of the realtime per-cycle protocol of `node.c`. -/
inductive REvent where
  | mixProcess (portId : Nat)
  | signal (targetId : Nat)
  | reset (targetId : Nat)
  | setRunning
  | dump (targetId : Nat) (required : Int)
         (signalTime awakeTime finishTime : Nat) (status : ActStatus)
deriving DecidableEq, Repr

def REvent.isSignal : REvent → Bool
  | .signal _ => true
  | _ => false

/-- Realtime-side view of a node: its own activation, its target list
(`rt.target_list`) and output mix ports.  `selfIsDriver` models the
pointer comparison `node == node->driver_node` made by `node_ready`. -/
structure RTNode where
  selfId : Nat
  driver : Bool
  master : Bool
  selfIsDriver : Bool
  activation : Activation
  targets : List Target
  outputMix : List Nat
deriving DecidableEq, Repr

/-- Modelled from the spec: `SPA_STATUS_HAVE_BUFFER` of the spa headers
(not under `src/`), the have-buffer bit of a backend `process()` status.
Negative (error) statuses are treated as carrying no flags. -/
def SPA_STATUS_HAVE_BUFFER : Nat := 2

def statusHasHaveBuffer (status : Int) : Bool :=
  status.toNat &&& SPA_STATUS_HAVE_BUFFER != 0

/-- The per-target body of `resume_node`'s loop (`node.c:679-692`): one
atomic decrement of the target's pending counter; on the unique zero
transition the target is marked `TRIGGERED`, its `signal_time` recorded,
and its signal function invoked (the returned flag). -/
def resume_target_step (t : Target) (nsec : Nat) : Target × Bool :=
  let (st, zero) := pw_node_activation_state_dec t.activation.state0
  if zero then
    ({ t with activation :=
        { t.activation with state0 := st, status := .triggered, signalTime := nsec } },
     true)
  else
    ({ t with activation := { t.activation with state0 := st } }, false)

/-- The loop of `resume_node` over a target list, returning the updated
targets and the signal events emitted (in list order). -/
def resumeTargets : List Target → Nat → List Target × List REvent
  | [], _ => ([], [])
  | t :: ts, nsec =>
    let (t2, fired) := resume_target_step t nsec
    let (ts2, evs) := resumeTargets ts nsec
    (t2 :: ts2, (if fired then [REvent.signal t.id] else []) ++ evs)

/-- `resume_node` (`node.c:659-694`): process the output mixes when the
status has the have-buffer flag, mark this node's activation `FINISHED`
with `finish_time := nsec`, then decrement-and-signal every target. -/
def resume_node (n : RTNode) (status : Int) (nsec : Nat) : RTNode × List REvent :=
  let mixEvs := if statusHasHaveBuffer status then n.outputMix.map REvent.mixProcess else []
  let a := { n.activation with status := ActStatus.finished, finishTime := nsec }
  let (ts, evs) := resumeTargets n.targets nsec
  ({ n with activation := a, targets := ts }, mixEvs ++ evs)

/-- `dump_states` (`node.c:640-657`): one warning line per target of the
driver's list, carrying the target's `required` counter, its
`signal_time`, `awake_time`, `finish_time` timestamps and its status. -/
def dump_states (targets : List Target) : List REvent :=
  targets.map fun t =>
    REvent.dump t.id t.activation.state0.required t.activation.signalTime
      t.activation.awakeTime t.activation.finishTime t.activation.status

/-- The reset applied by `node_ready`'s driver loop to each target entry:
`pw_node_activation_state_reset` on `state[0]` and
`status := NOT_TRIGGERED`. -/
def resetTarget (t : Target) : Target :=
  { t with activation :=
      { t.activation with
          state0 := pw_node_activation_state_reset t.activation.state0,
          status := ActStatus.notTriggered } }

/-- The driver block of `node_ready` (`node.c:1034-1045`): if the
previous cycle is still marked running, dump all targets and kick the
driver's own target to re-arm; then reset every target entry and set the
driver's `running` flag. -/
def node_ready_resetPhase (n : RTNode) : RTNode × List REvent :=
  let staleEvs :=
    if n.activation.running then dump_states n.targets ++ [REvent.signal n.selfId]
    else []
  let resetEvs := n.targets.map fun t => REvent.reset t.id
  ({ n with targets := n.targets.map resetTarget,
            activation := { n.activation with running := true } },
   staleEvs ++ resetEvs ++ [REvent.setRunning])

/-- `node_ready` (`node.c:1025-1050`): the backend's ready callback.  For
the driver it runs the reset phase; a non-master driver node returns 0,
every other node resumes (decrements and signals) its target list. -/
def node_ready (n : RTNode) (status : Int) (nsec : Nat) :
    RTNode × List REvent × Int :=
  let (n1, tr1) := if n.selfIsDriver then node_ready_resetPhase n else (n, [])
  if n1.driver && !n1.master then (n1, tr1, 0)
  else
    let (n2, tr2) := resume_node n1 status nsec
    (n2, tr1 ++ tr2, 0)

/-! ## One cycle of decrements against a single target (for claim C1)

A cycle delivers to a target exactly `required` decrements — one per
upstream completion, `required` being the fan-in on the current graph
(spec §3, activation record invariant).  `cycleSignalCount` counts how
many of those decrement-and-signal steps actually invoked the target's
signal function. -/

def cycleSignalCount : Target → List Nat → Nat
  | _, [] => 0
  | t, nsec :: rest =>
    let (t2, fired) := resume_target_step t nsec
    (if fired then 1 else 0) + cycleSignalCount t2 rest

theorem cycleSignalCount_eq (nsecs : List Nat) (t : Target) :
    cycleSignalCount t nsecs =
      if 1 ≤ t.activation.state0.pending ∧
         t.activation.state0.pending ≤ (nsecs.length : Int) then 1 else 0 := by
  induction nsecs generalizing t with
  | nil =>
    simp only [cycleSignalCount, List.length_nil, Nat.cast_zero]
    split <;> omega
  | cons nsec rest ih =>
    by_cases hz : t.activation.state0.pending - 1 = 0
    · have hzb : (t.activation.state0.pending - 1 == 0) = true := by simpa using hz
      simp [cycleSignalCount, resume_target_step, pw_node_activation_state_dec, hzb, ih]
      split_ifs <;> omega
    · have hzb : (t.activation.state0.pending - 1 == 0) = false := by simpa using hz
      simp [cycleSignalCount, resume_target_step, pw_node_activation_state_dec, hzb, ih]
      split_ifs <;> omega

/-- C1: during one processing cycle, a target entry with fan-in
`required ≥ 1` whose activation was reset at cycle start receives exactly
one invocation of its signal function across the cycle's `required`
decrement-and-signal steps (one step per upstream completion, as in
`resume_node`), and a step signals precisely when its decrement of the
pending counter is the one that reaches zero. -/
theorem resume_signals_exactly_once (t : Target) (nsecs : List Nat)
    (hreq : 1 ≤ t.activation.state0.required)
    (hlen : (nsecs.length : Int) = t.activation.state0.required) :
    cycleSignalCount (resetTarget t) nsecs = 1 ∧
    ∀ (u : Target) (ns : Nat),
      (resume_target_step u ns).2 = (pw_node_activation_state_dec u.activation.state0).2 := by
  constructor
  · rw [cycleSignalCount_eq]
    simp only [resetTarget, pw_node_activation_state_reset]
    rw [if_pos]
    exact ⟨hreq, by omega⟩
  · intro u ns
    simp only [resume_target_step]
    split <;> simp_all

def c1Target : Target :=
  { id := 3,
    activation :=
      { state0 := { status := 0, pending := 7, required := 2 },
        signalTime := 0, awakeTime := 0, finishTime := 0,
        status := ActStatus.finished, running := false } }

theorem resume_signals_exactly_once_witness :
    (1 ≤ c1Target.activation.state0.required ∧
     ((([5, 9] : List Nat).length : Int) = c1Target.activation.state0.required)) ∧
    (cycleSignalCount (resetTarget c1Target) [5, 9] = 1 ∧
     ∀ (u : Target) (ns : Nat),
       (resume_target_step u ns).2 = (pw_node_activation_state_dec u.activation.state0).2) :=
  ⟨⟨by decide, by decide⟩,
   resume_signals_exactly_once c1Target [5, 9] (by decide) (by decide)⟩

/-- C2 (amended): when the driver's backend reports ready and the
previous cycle completed (the activation's `running` flag is false),
`node_ready` resets every target entry of the driver's list
(`pending := required`, `status := NOT_TRIGGERED`) and sets the driver's
`running` flag to true, all before any target is signalled: the emitted
trace is the per-target resets followed by the running-flag write, and no
event in that prefix is a signal. -/
theorem node_ready_resets_before_signalling (n : RTNode) (status : Int) (nsec : Nat)
    (hd : n.selfIsDriver = true) (hr : n.activation.running = false) :
    (∀ t ∈ n.targets,
        (resetTarget t).activation.state0.pending = t.activation.state0.required ∧
        (resetTarget t).activation.status = ActStatus.notTriggered) ∧
    (node_ready_resetPhase n).1.targets = n.targets.map resetTarget ∧
    (node_ready_resetPhase n).1.activation.running = true ∧
    (∃ tail, (node_ready n status nsec).2.1 =
        (n.targets.map fun t => REvent.reset t.id) ++ REvent.setRunning :: tail) ∧
    (∀ e ∈ (node_ready n status nsec).2.1.take (n.targets.length + 1),
        e.isSignal = false) := by
  refine ⟨?_, ?_, ?_, ?_⟩
  · intro t _
    simp [resetTarget, pw_node_activation_state_reset]
  · simp [node_ready_resetPhase]
  · simp [node_ready_resetPhase]
  · have hpre : (node_ready_resetPhase n).2 =
        (n.targets.map fun t => REvent.reset t.id) ++ [REvent.setRunning] := by
      simp [node_ready_resetPhase, hr]
    have hstep : ∃ tail, (node_ready n status nsec).2.1 =
        ((n.targets.map fun t => REvent.reset t.id) ++ [REvent.setRunning]) ++ tail := by
      simp only [node_ready, hd, if_true]
      by_cases hm : (node_ready_resetPhase n).1.driver && !(node_ready_resetPhase n).1.master
      · exact ⟨[], by simp [hm, hpre]⟩
      · refine ⟨(resume_node (node_ready_resetPhase n).1 status nsec).2, ?_⟩
        simp [hm, hpre]
    obtain ⟨tail, htr⟩ := hstep
    constructor
    · exact ⟨tail, by simpa using htr⟩
    · intro e he
      rw [htr] at he
      have hlen : ((n.targets.map fun t => REvent.reset t.id) ++
          [REvent.setRunning]).length = n.targets.length + 1 := by simp
      rw [← hlen, List.take_left] at he
      rcases List.mem_append.mp he with h1 | h2
      · obtain ⟨t, _, rfl⟩ := List.mem_map.mp h1
        rfl
      · simp only [List.mem_singleton] at h2
        subst h2
        rfl

def c2Node : RTNode :=
  { selfId := 1, driver := true, master := true, selfIsDriver := true,
    activation :=
      { state0 := { status := 0, pending := 0, required := 2 },
        signalTime := 0, awakeTime := 0, finishTime := 0,
        status := ActStatus.finished, running := false },
    targets := [c1Target],
    outputMix := [] }

theorem node_ready_resets_before_signalling_witness :
    (c2Node.selfIsDriver = true ∧ c2Node.activation.running = false) ∧
    ((∀ t ∈ c2Node.targets,
        (resetTarget t).activation.state0.pending = t.activation.state0.required ∧
        (resetTarget t).activation.status = ActStatus.notTriggered) ∧
     (node_ready_resetPhase c2Node).1.targets = c2Node.targets.map resetTarget ∧
     (node_ready_resetPhase c2Node).1.activation.running = true ∧
     (∃ tail, (node_ready c2Node 0 5).2.1 =
         (c2Node.targets.map fun t => REvent.reset t.id) ++ REvent.setRunning :: tail) ∧
     (∀ e ∈ (node_ready c2Node 0 5).2.1.take (c2Node.targets.length + 1),
         e.isSignal = false)) :=
  ⟨⟨rfl, rfl⟩, node_ready_resets_before_signalling c2Node 0 5 rfl rfl⟩

/-- C7: when the driver wakes with the previous cycle's `running` flag
still true, `node_ready` first emits a dump of every target's counters
and timestamps (`required`, `signal_time`, `awake_time`, `finish_time`,
`status`) and then signals the driver's own target to re-arm, and only
after that resets the target entries for the new cycle. -/
theorem node_ready_stale_cycle (n : RTNode) (status : Int) (nsec : Nat)
    (hd : n.selfIsDriver = true) (hr : n.activation.running = true) :
    dump_states n.targets = (n.targets.map fun t =>
      REvent.dump t.id t.activation.state0.required t.activation.signalTime
        t.activation.awakeTime t.activation.finishTime t.activation.status) ∧
    ∃ tail, (node_ready n status nsec).2.1 =
      dump_states n.targets ++ REvent.signal n.selfId ::
        ((n.targets.map fun t => REvent.reset t.id) ++ REvent.setRunning :: tail) := by
  refine ⟨rfl, ?_⟩
  have hpre : (node_ready_resetPhase n).2 =
      dump_states n.targets ++ REvent.signal n.selfId ::
        ((n.targets.map fun t => REvent.reset t.id) ++ [REvent.setRunning]) := by
    simp [node_ready_resetPhase, hr]
  simp only [node_ready, hd, if_true]
  by_cases hm : (node_ready_resetPhase n).1.driver && !(node_ready_resetPhase n).1.master
  · exact ⟨[], by simp [hm, hpre]⟩
  · refine ⟨(resume_node (node_ready_resetPhase n).1 status nsec).2, ?_⟩
    simp [hm, hpre]

def c7Node : RTNode :=
  { c2Node with
    activation := { c2Node.activation with running := true } }

theorem node_ready_stale_cycle_witness :
    (c7Node.selfIsDriver = true ∧ c7Node.activation.running = true) ∧
    (dump_states c7Node.targets = (c7Node.targets.map fun t =>
       REvent.dump t.id t.activation.state0.required t.activation.signalTime
         t.activation.awakeTime t.activation.finishTime t.activation.status) ∧
     ∃ tail, (node_ready c7Node 0 5).2.1 =
       dump_states c7Node.targets ++ REvent.signal c7Node.selfId ::
         ((c7Node.targets.map fun t => REvent.reset t.id) ++
           REvent.setRunning :: tail)) :=
  ⟨⟨rfl, rfl⟩, node_ready_stale_cycle c7Node 0 5 rfl rfl⟩

/-- C2 counterexample: on a driver whose `running` flag is still true at
ready (the previous cycle did not complete), the claimed ordering fails:
the emitted trace signals the driver's own target (the re-arm kick of
`node.c:1038`) before the resets and before the running-flag write, so a
target IS signalled before the driver's running flag is set for the new
cycle. -/
theorem node_ready_signal_before_reset_cex :
    c7Node.selfIsDriver = true ∧
    (node_ready c7Node 0 5).2.1.take 2 =
      [REvent.dump 3 2 0 0 0 ActStatus.finished, REvent.signal 1] ∧
    REvent.signal 1 ∈ (node_ready c7Node 0 5).2.1.take (c7Node.targets.length + 1) ∧
    ¬ (∀ e ∈ (node_ready c7Node 0 5).2.1.take (c7Node.targets.length + 1),
        e.isSignal = false) := by
  refine ⟨rfl, by decide, by decide, ?_⟩
  intro h
  exact absurd (h (REvent.signal 1) (by decide)) (by decide)

/-! ## `flp2` and `check_properties` (`node.c:591-638`) -/

/-- One line of `flp2`'s bit smearing: `x = x | (x >> s)`. -/
def smearStep (y s : Nat) : Nat := y ||| (y >>> s)

/-- The five smearing assignments of `flp2` (`node.c:593-597`), with
shift amounts 1, 2, 4, 8, 16. -/
def smear32 (x : Nat) : Nat :=
  smearStep (smearStep (smearStep (smearStep (smearStep x 1) 2) 4) 8) 16

/-- `flp2` (`node.c:591-599`): after smearing the most significant bit
through all lower positions, `x - (x >> 1)` leaves just that bit.  The
argument is a `uint32_t`, kept below `2^32` by the callers. -/
def flp2 (x : Nat) : Nat := smear32 x - (smear32 x >>> 1)

theorem smearStep_testBit {x y : Nat} (k : Nat)
    (hy : ∀ i, y.testBit i = true ↔ ∃ d, d < k ∧ x.testBit (i + d) = true) :
    ∀ i, (smearStep y k).testBit i = true ↔
      ∃ d, d < 2 * k ∧ x.testBit (i + d) = true := by
  intro i
  rw [smearStep, Nat.testBit_or, Nat.testBit_shiftRight, Bool.or_eq_true,
    hy i, hy (k + i)]
  constructor
  · rintro (⟨d, hd, h⟩ | ⟨d, hd, h⟩)
    · exact ⟨d, by omega, h⟩
    · refine ⟨k + d, by omega, ?_⟩
      have he : i + (k + d) = k + i + d := by omega
      rwa [he]
  · rintro ⟨d, hd, h⟩
    by_cases hdk : d < k
    · exact Or.inl ⟨d, hdk, h⟩
    · refine Or.inr ⟨d - k, by omega, ?_⟩
      have he : k + i + (d - k) = i + d := by omega
      rwa [he]

theorem smear32_testBit (x i : Nat) :
    (smear32 x).testBit i = true ↔ ∃ d, d < 32 ∧ x.testBit (i + d) = true := by
  have h0 : ∀ j, x.testBit j = true ↔ ∃ d, d < 1 ∧ x.testBit (j + d) = true := by
    intro j
    constructor
    · intro h; exact ⟨0, by omega, by simpa using h⟩
    · rintro ⟨d, hd, h⟩
      have : d = 0 := by omega
      subst this; simpa using h
  have h1 := smearStep_testBit 1 h0
  have h2 := smearStep_testBit 2 h1
  have h4 := smearStep_testBit 4 h2
  have h8 := smearStep_testBit 8 h4
  have h16 := smearStep_testBit 16 h8
  exact h16 i

theorem smear32_eq (x : Nat) (h1 : 1 ≤ x) (h32 : x < 2 ^ 32) :
    smear32 x = 2 ^ (Nat.log2 x + 1) - 1 := by
  have hx0 : x ≠ 0 := by omega
  have hml : 2 ^ Nat.log2 x ≤ x := Nat.log2_self_le hx0
  have hmu : x < 2 ^ (Nat.log2 x + 1) := Nat.lt_log2_self
  have hm31 : Nat.log2 x < 32 := (Nat.log2_lt hx0).mpr h32
  have hbit : x.testBit (Nat.log2 x) = true := by
    rw [Nat.testBit_to_div_mod]
    have hdiv : x / 2 ^ Nat.log2 x = 1 := by
      refine Nat.div_eq_of_lt_le (by simpa using hml) ?_
      have : (1 + 1) * 2 ^ Nat.log2 x = 2 ^ (Nat.log2 x + 1) := by ring
      omega
    simp [hdiv]
  have hhi : ∀ j, Nat.log2 x < j → x.testBit j = false := by
    intro j hj
    exact Nat.testBit_lt_two_pow
      (lt_of_lt_of_le hmu (Nat.pow_le_pow_right (by norm_num) hj))
  refine Nat.eq_of_testBit_eq fun i => ?_
  rw [Nat.testBit_two_pow_sub_one]
  by_cases hi : i < Nat.log2 x + 1
  · simp only [hi, decide_True]
    exact (smear32_testBit x i).mpr
      ⟨Nat.log2 x - i, by omega, by
        have he : i + (Nat.log2 x - i) = Nat.log2 x := by omega
        rwa [he]⟩
  · simp only [hi, decide_False]
    by_contra hc
    have hc2 : (smear32 x).testBit i = true := by
      cases h : (smear32 x).testBit i
      · exact absurd h hc
      · rfl
    obtain ⟨d, _, hb⟩ := (smear32_testBit x i).mp hc2
    have : x.testBit (i + d) = false := hhi (i + d) (by omega)
    rw [this] at hb
    exact Bool.false_ne_true hb

/-- For a nonzero 32-bit value, `flp2` computes the largest power of two
not exceeding it. -/
theorem flp2_eq_pow_log2 (x : Nat) (h1 : 1 ≤ x) (h32 : x < 2 ^ 32) :
    flp2 x = 2 ^ Nat.log2 x := by
  rw [flp2, smear32_eq x h1 h32]
  have hp : 1 ≤ 2 ^ Nat.log2 x := Nat.one_le_two_pow
  have hs : (2 ^ (Nat.log2 x + 1) - 1) >>> 1 = 2 ^ Nat.log2 x - 1 := by
    rw [Nat.shiftRight_succ, Nat.shiftRight_zero]
    have : 2 ^ (Nat.log2 x + 1) = 2 ^ Nat.log2 x * 2 := by ring
    omega
  rw [hs]
  have : 2 ^ (Nat.log2 x + 1) = 2 ^ Nat.log2 x * 2 := by ring
  omega

theorem flp2_zero : flp2 0 = 0 := by decide

/-! ## Properties and `check_properties` (`node.c:601-638`)

The property bag (`pw_properties`, not under `src/`) is modelled from the
spec as an association list with first-match lookup. -/

def propGet (props : List (String × String)) (key : String) : Option String :=
  match props with
  | [] => none
  | (k, v) :: rest => if k = key then some v else propGet rest key

def natOfDigits (cs : List Char) : Nat :=
  cs.foldl (fun a c => a * 10 + (c.toNat - 48)) 0

/-- Modelled from the spec: `pw_properties_parse_bool` (properties code
not under `src/`): a property is true when it is the string "true" or
parses to the integer 1. -/
def pw_properties_parse_bool (s : String) : Bool :=
  s = "true" || (s.toList.takeWhile Char.isDigit ≠ [] &&
                 natOfDigits (s.toList.takeWhile Char.isDigit) = 1)

/-- The `sscanf(str, "%u/%u")` parse of `check_properties`
(`node.c:629`): two decimal numbers separated by a slash, values taken as
32-bit unsigned. -/
def parse_latency (s : String) : Option (Nat × Nat) :=
  let cs := (s.toList).dropWhile (fun c => c = ' ')
  let ds1 := cs.takeWhile Char.isDigit
  let rest1 := cs.dropWhile Char.isDigit
  if ds1 = [] then none
  else
    match rest1 with
    | '/' :: r2 =>
      let r2b := r2.dropWhile (fun c => c = ' ')
      let ds2 := r2b.takeWhile Char.isDigit
      if ds2 = [] then none
      else some (natOfDigits ds1 % 2 ^ 32, natOfDigits ds2 % 2 ^ 32)
    | _ => none

/-- Modelled from the spec: `DEFAULT_QUANTUM` of `pipewire/private.h`
(not under `src/`), the default cycle size. -/
def DEFAULT_QUANTUM : Nat := 1024

/-- The fields of `struct pw_node` that `check_properties` reads and
writes.  `inDriverList` models membership of `core->driver_list`. -/
structure PropNode where
  properties : List (String × String)
  pauseOnIdle : Bool
  driver : Bool
  inDriverList : Bool
  quantumSize : Nat
deriving DecidableEq, Repr

/-- `check_properties` (`node.c:601-638`): reads `node.pause-on-idle`
(default true), `node.driver` (default false, toggling membership of the
core's driver list on change), and `node.latency`: when the latency
parses as `num/denom` with `denom != 0`, `quantum_size` becomes
`flp2(num * 48000 / denom)` in 32-bit unsigned arithmetic — the constant
48000 is used regardless of any backend rate; when the property is
absent, `quantum_size` becomes `DEFAULT_QUANTUM`; when present but
unparsable, `quantum_size` is left unchanged. -/
def check_properties (n : PropNode) : PropNode :=
  let pauseOnIdle :=
    match propGet n.properties "node.pause-on-idle" with
    | some s => pw_properties_parse_bool s
    | none => true
  let driver :=
    match propGet n.properties "node.driver" with
    | some s => pw_properties_parse_bool s
    | none => false
  let quantum :=
    match propGet n.properties "node.latency" with
    | some s =>
      match parse_latency s with
      | some (num, denom) =>
        if denom ≠ 0 then flp2 (num * 48000 % 2 ^ 32 / denom)
        else n.quantumSize
      | none => n.quantumSize
    | none => DEFAULT_QUANTUM
  { n with pauseOnIdle := pauseOnIdle,
           driver := driver,
           inDriverList := if n.driver != driver then driver else n.inDriverList,
           quantumSize := quantum }

/-- `r` is the largest power of two not exceeding `q`. -/
def IsGreatestPow2LE (q r : Nat) : Prop :=
  (∃ k, r = 2 ^ k) ∧ r ≤ q ∧ ∀ k, 2 ^ k ≤ q → 2 ^ k ≤ r

/-- C8 counterexample: with `node.latency = "0/1"` the property parses
with `denom = 1 ≠ 0` and the computed quotient is `0`; `check_properties`
sets `quantum_size` to `flp2 0 = 0`, which is not a power of two, so it
is not "the largest power of two not exceeding num * 48000 / denom" —
no power of two is ≤ 0 at all. -/
theorem check_properties_quantum_cex :
    parse_latency "0/1" = some (0, 1) ∧
    (check_properties
        { properties := [("node.latency", "0/1")], pauseOnIdle := true,
          driver := false, inDriverList := false,
          quantumSize := DEFAULT_QUANTUM }).quantumSize = 0 ∧
    ¬ IsGreatestPow2LE (0 * 48000 % 2 ^ 32 / 1)
        (check_properties
          { properties := [("node.latency", "0/1")], pauseOnIdle := true,
            driver := false, inDriverList := false,
            quantumSize := DEFAULT_QUANTUM }).quantumSize := by
  refine ⟨by decide, by decide, ?_⟩
  rintro ⟨⟨k, hk⟩, hle, -⟩
  rw [hk] at hle
  have h2 : 1 ≤ 2 ^ k := Nat.one_le_two_pow
  have hq : (0 * 48000 % 2 ^ 32 / 1) = 0 := by decide
  rw [hq] at hle
  omega

/-- C8 (amended): when `node.latency` parses as `num/denom` with
`denom != 0`, `check_properties` sets `quantum_size` to
`flp2(num * 48000 / denom)` computed in 32-bit unsigned arithmetic with
the constant 48000 irrespective of any backend rate; for a nonzero
quotient this is the largest power of two not exceeding the quotient,
for a zero quotient it is 0.  When the property is absent, `quantum_size`
becomes `DEFAULT_QUANTUM`. -/
theorem check_properties_quantum (n : PropNode) (s : String) (num denom : Nat)
    (hs : propGet n.properties "node.latency" = some s)
    (hp : parse_latency s = some (num, denom))
    (hd : denom ≠ 0) :
    (check_properties n).quantumSize = flp2 (num * 48000 % 2 ^ 32 / denom) ∧
    (1 ≤ num * 48000 % 2 ^ 32 / denom →
      IsGreatestPow2LE (num * 48000 % 2 ^ 32 / denom)
        (check_properties n).quantumSize) ∧
    (num * 48000 % 2 ^ 32 / denom = 0 → (check_properties n).quantumSize = 0) ∧
    ∀ m : PropNode, propGet m.properties "node.latency" = none →
      (check_properties m).quantumSize = DEFAULT_QUANTUM := by
  have hq : (check_properties n).quantumSize = flp2 (num * 48000 % 2 ^ 32 / denom) := by
    rw [check_properties]
    simp only [hs, hp]
    rw [if_pos hd]
  have hlt : num * 48000 % 2 ^ 32 / denom < 2 ^ 32 := by
    have h1 : num * 48000 % 2 ^ 32 < 2 ^ 32 := Nat.mod_lt _ (by norm_num)
    exact lt_of_le_of_lt (Nat.div_le_self _ _) h1
  refine ⟨hq, ?_, ?_, ?_⟩
  · intro h1
    rw [hq, flp2_eq_pow_log2 _ h1 hlt]
    set q := num * 48000 % 2 ^ 32 / denom with hqdef
    refine ⟨⟨Nat.log2 q, rfl⟩, Nat.log2_self_le (by omega), ?_⟩
    intro k hk
    have hup : q < 2 ^ (Nat.log2 q + 1) := Nat.lt_log2_self
    have hklt : 2 ^ k < 2 ^ (Nat.log2 q + 1) := lt_of_le_of_lt hk hup
    have hkle : k ≤ Nat.log2 q := by
      have := (Nat.pow_lt_pow_iff_right (a := 2) (by norm_num)).mp hklt
      omega
    exact Nat.pow_le_pow_right (by norm_num) hkle
  · intro h0
    rw [hq, h0, flp2_zero]
  · intro m hm
    rw [check_properties]
    simp only [hm]

def c8Node : PropNode :=
  { properties := [("node.latency", "3/2")], pauseOnIdle := true,
    driver := false, inDriverList := false, quantumSize := DEFAULT_QUANTUM }

theorem check_properties_quantum_witness :
    (propGet c8Node.properties "node.latency" = some "3/2" ∧
     parse_latency "3/2" = some (3, 2) ∧ (2 : Nat) ≠ 0) ∧
    ((check_properties c8Node).quantumSize = flp2 (3 * 48000 % 2 ^ 32 / 2) ∧
     (1 ≤ 3 * 48000 % 2 ^ 32 / 2 →
       IsGreatestPow2LE (3 * 48000 % 2 ^ 32 / 2)
         (check_properties c8Node).quantumSize) ∧
     (3 * 48000 % 2 ^ 32 / 2 = 0 → (check_properties c8Node).quantumSize = 0) ∧
     ∀ m : PropNode, propGet m.properties "node.latency" = none →
       (check_properties m).quantumSize = DEFAULT_QUANTUM) :=
  ⟨⟨by decide, by decide, by decide⟩,
   check_properties_quantum c8Node "3/2" 3 2 (by decide) (by decide) (by decide)⟩

/-! ## Main-thread node model

The non-realtime operations of `node.c`.  External interfaces (backend
methods, link activation, loop invokes, listener emissions) are modelled
as emitted `MEvent`s; backend calls additionally return the result stored
in the attached `Backend` record (the backend is an external collaborator
per spec §6).  A backend method invoked while `node->node` is NULL is the
undefined-behaviour case, modelled as `none`. -/

def Eio : Int := 5
def EEXIST : Int := 17

/-- Modelled from the spec: the `SPA_RESULT_*` macros of
`spa/utils/result.h` (not under `src/`): an async result has bit 30 set
and bit 31 clear, and carries a sequence number in the low 30 bits. -/
def SPA_ASYNC_BIT : Nat := 1 <<< 30

def SPA_ASYNC_MASK : Nat := 3 <<< 30

def SPA_ASYNC_SEQ_MASK : Nat := SPA_ASYNC_BIT - 1

def spaResultIsAsync (r : Int) : Bool :=
  decide (0 ≤ r) && (r.toNat &&& SPA_ASYNC_MASK == SPA_ASYNC_BIT)

def spaResultAsyncSeq (r : Int) : Nat := r.toNat &&& SPA_ASYNC_SEQ_MASK

def spaResultIsError (r : Int) : Bool := r < 0

/-- Modelled from the spec: the state bit of `info.change_mask`
(`PW_NODE_CHANGE_MASK_STATE` of `pipewire/node.h`, not under `src/`);
only being a fixed nonzero bit matters here. -/
def PW_NODE_CHANGE_MASK_STATE : Nat := 1 <<< 2

/-- Port states, from the spec §4.2 (`enum pw_port_state` is not under
`src/`); `suspend_node` forces ports to `configure`. -/
inductive PwPortState where
  | init
  | configure
  | ready
  | paused
deriving DecidableEq, Repr

/-- The slice of `struct pw_port` that `node.c` touches:
`setParamResult` is the result the backend gives to the modelled
`pw_port_set_param(p, SPA_PARAM_Format, 0, NULL)` forward (spec §4.2:
`set_param` forwards to the backend; `port.c` is not under `src/`). -/
structure Port where
  portId : Nat
  state : PwPortState
  setParamResult : Int
  links : List Nat
deriving DecidableEq, Repr

inductive Cmd where
  | pause
  | start
  | suspendCmd
deriving DecidableEq, Repr

/-- Modelled from the spec: the results an attached backend returns from
each interface method used by `node.c`. -/
structure Backend where
  pauseResult : Int
  startResult : Int
  addListenerResult : Int
  setIoPositionResult : Int
  setIoClockResult : Int
  syncResult : Int
deriving DecidableEq, Repr

inductive IoKind where
  | position
  | clock
deriving DecidableEq, Repr

/-- Where an `io` channel is pointed: at the position block or at the
clock inside the activation record of the node with the given id. -/
inductive IoTarget where
  | activationPosition (nodeId : Nat)
  | activationClock (nodeId : Nat)
deriving DecidableEq, Repr

/-- Trace events of the main-thread operations of `node.c`. -/
inductive MEvent where
  | stateRequest (s : PwNodeState)
  | stateChanged (old next : PwNodeState) (err : Option String)
  | infoChanged
  | driverChanged (old next : Nat)
  | sendCommand (c : Cmd)
  | setIo (k : IoKind) (tgt : IoTarget)
  | setCallbacks
  | addListener
  | linkActivate (l : Nat)
  | linkDeactivate (l : Nat)
  | invokeNodeAdd
  | invokeNodeRemove
  | invokeMoveNodes (driverId : Nat)
  | portSetParam (p : Nat)
  | resultEvent (seq : Int) (res : Int)
  | syncCall
deriving DecidableEq, Repr

/-- Modelled from the spec §4.6: a work-queue entry.  `seq = some s`
awaits `complete` with sequence `s`; `seq = none` models an entry queued
with a non-async result, completed by the main loop with the stored
result. -/
structure WorkItem where
  seq : Option Nat
  res : Int
  state : PwNodeState
deriving DecidableEq, Repr

/-- The slice of `struct pw_node` (+ its wrapping `struct impl`) used by
the main-thread operations. -/
structure MNode where
  id : Nat
  infoState : PwNodeState
  infoError : Option String
  changeMask : Nat
  active : Bool
  pauseOnIdle : Bool
  driver : Bool
  master : Bool
  driverNode : Nat
  backend : Option Backend
  inputPorts : List Port
  outputPorts : List Port
  nReadyOutputLinks : Nat
  nUsedOutputLinks : Nat
  nReadyInputLinks : Nat
  nUsedInputLinks : Nat
  properties : List (String × String)
  quantumSize : Nat
  inDriverList : Bool
  rtPosition : Option IoTarget
  rtClock : Option IoTarget
  work : List WorkItem
  lastError : Int
deriving DecidableEq, Repr

/-- `emit_info_changed` (`node.c:182-196`): emits an info-changed
notification if any change-mask bits are set, then clears the mask. -/
def emit_info_changed (n : MNode) : MNode × List MEvent :=
  if n.changeMask = 0 then (n, [])
  else ({ n with changeMask := 0 }, [MEvent.infoChanged])

/-- `node_update_state` (`node.c:255-287`): records the new state and
error string, schedules the realtime-side add on entering running, emits
the state-changed event and then the info-changed notification. -/
def node_update_state (n : MNode) (state : PwNodeState) (error : Option String) :
    MNode × List MEvent :=
  let old := n.infoState
  if old = state then (n, [])
  else
    let n1 := { n with infoError := error, infoState := state }
    let evs := if state = PwNodeState.running then [MEvent.invokeNodeAdd] else []
    let n2 := { n1 with changeMask := n1.changeMask ||| PW_NODE_CHANGE_MASK_STATE }
    let (n3, evs2) := emit_info_changed n2
    (n3, evs ++ [MEvent.stateChanged old state error] ++ evs2)

/-- `node_activate` (`node.c:1352-1367`): activates every link of every
input port, then of every output port. -/
def node_activate_events (n : MNode) : List MEvent :=
  (n.inputPorts.map fun p => p.links.map MEvent.linkActivate).flatten ++
  (n.outputPorts.map fun p => p.links.map MEvent.linkActivate).flatten

/-- `node_deactivate` (`node.c:71-85`): deactivates every link of every
input port, then of every output port. -/
def node_deactivate_events (n : MNode) : List MEvent :=
  (n.inputPorts.map fun p => p.links.map MEvent.linkDeactivate).flatten ++
  (n.outputPorts.map fun p => p.links.map MEvent.linkDeactivate).flatten

/-- Modelled from the spec §4.2: `pw_port_set_param` forwards to the
owning node's backend (`port.c` is not under `src/`); with no backend
attached the forward dereferences NULL. -/
def pw_port_set_param (backend : Option Backend) (p : Port) : Option Int :=
  match backend with
  | none => none
  | some _ => some p.setParamResult

/-- The port loops of `suspend_node` (`node.c:296-308`): unset the format
on each port and force its state to `CONFIGURE`; `res` is overwritten by
each call's result. -/
def suspendPorts (backend : Option Backend) :
    List Port → Int → Option (List Port × Int × List MEvent)
  | [], res => some ([], res, [])
  | p :: ps, _ =>
    match pw_port_set_param backend p with
    | none => none
    | some r =>
      match suspendPorts backend ps r with
      | none => none
      | some (ps2, res2, evs) =>
        some ({ p with state := PwPortState.configure } :: ps2, res2,
              MEvent.portSetParam p.portId :: evs)

/-- `suspend_node` (`node.c:289-311`): unset formats on all input then
output ports and unconditionally update the node state to suspended. -/
def suspend_node (n : MNode) : Option (MNode × Int × List MEvent) :=
  match suspendPorts n.backend n.inputPorts 0 with
  | none => none
  | some (ips, res1, evs1) =>
    match suspendPorts n.backend n.outputPorts res1 with
    | none => none
    | some (ops, res2, evs2) =>
      let n1 := { n with inputPorts := ips, outputPorts := ops }
      let (n2, evs3) := node_update_state n1 PwNodeState.suspended none
      some (n2, res2, evs1 ++ evs2 ++ evs3)

/-- `pause_node` (`node.c:124-142`): no-op at idle or below; otherwise
deactivate links, schedule the realtime-side removal, and send Pause to
the backend. -/
def pause_node (n : MNode) : Option (MNode × Int × List MEvent) :=
  if n.infoState.val ≤ PwNodeState.idle.val then some (n, 0, [])
  else
    let evs := node_deactivate_events n ++ [MEvent.invokeNodeRemove]
    match n.backend with
    | none => none
    | some b => some (n, b.pauseResult, evs ++ [MEvent.sendCommand Cmd.pause])

/-- `start_node` (`node.c:158-180`): no-op at running or above; sends the
Start command only when the ready link counts match the used link counts
on both directions, otherwise returns 0 without sending anything. -/
def start_node (n : MNode) : Option (MNode × Int × List MEvent) :=
  if PwNodeState.running.val ≤ n.infoState.val then some (n, 0, [])
  else if n.nReadyOutputLinks ≠ n.nUsedOutputLinks ∨
          n.nReadyInputLinks ≠ n.nUsedInputLinks then some (n, 0, [])
  else
    match n.backend with
    | none => none
    | some b => some (n, b.startResult, [MEvent.sendCommand Cmd.start])

/-- Modelled from the spec §4.6: `pw_work_queue_add` (work-queue code not
under `src/`) stores a pending entry keyed by the async sequence, or an
already-resolved entry (completed by the next main-loop iteration) for a
non-async result. -/
def pw_work_queue_add (n : MNode) (res : Int) (state : PwNodeState) : MNode :=
  if spaResultIsAsync res then
    { n with work := n.work ++
        [{ seq := some (spaResultAsyncSeq res), res := 0, state := state }] }
  else
    { n with work := n.work ++ [{ seq := none, res := res, state := state }] }

/-- The state switch of `pw_node_set_state` (`node.c:1395-1417`). -/
def set_state_branch (n : MNode) (state : PwNodeState) :
    Option (MNode × Int × List MEvent) :=
  match state with
  | PwNodeState.creating => some (n, -Eio, [])
  | PwNodeState.suspended => suspend_node n
  | PwNodeState.idle =>
    if n.active && n.pauseOnIdle then pause_node n else some (n, 0, [])
  | PwNodeState.running =>
    if n.active then
      let evsA := node_activate_events n
      match start_node n with
      | none => none
      | some (n2, res, evsS) => some (n2, res, evsA ++ evsS)
    else some (n, 0, [])
  | PwNodeState.error => some (n, 0, [])

/-- `pw_node_set_state` (`node.c:1379-1429`): early return when already
in the requested state; otherwise emit the state request, run the state
switch, return synchronous errors directly, turn an async result into a
backend sync, and register the completion on the work queue. -/
def pw_node_set_state (n : MNode) (state : PwNodeState) :
    Option (MNode × Int × List MEvent) :=
  if n.infoState = state then some (n, 0, [])
  else
    match set_state_branch n state with
    | none => none
    | some (n1, res, evs1) =>
      let evs := MEvent.stateRequest state :: evs1
      if spaResultIsError res then some (n1, res, evs)
      else if spaResultIsAsync res then
        match n1.backend with
        | none => none
        | some b =>
          some (pw_work_queue_add n1 b.syncResult state, b.syncResult,
                evs ++ [MEvent.syncCall])
      else
        some (pw_work_queue_add n1 res state, res, evs)

/-- The error string built by `on_state_complete`'s
`asprintf(&error, "error changing node state: %d", res)`. -/
def stateCompleteError (res : Int) : String :=
  "error changing node state: " ++ toString res

/-- `on_state_complete` (`node.c:1338-1350`): an error result redirects
the completed transition into the error state with a recorded error
string. -/
def on_state_complete (n : MNode) (state : PwNodeState) (res : Int) :
    MNode × List MEvent :=
  if spaResultIsError res then
    node_update_state n PwNodeState.error (some (stateCompleteError res))
  else
    node_update_state n state none

/-- Modelled from the spec §4.6: completion matches the first entry with
the exact sequence and removes it. -/
def work_queue_find : List WorkItem → Nat → Option (WorkItem × List WorkItem)
  | [], _ => none
  | it :: rest, s =>
    if it.seq = some s then some (it, rest)
    else
      match work_queue_find rest s with
      | some (f, r) => some (f, it :: r)
      | none => none

/-- `node_result` (`node.c:985-997`): record the last error, complete the
matching work-queue entry when the sequence is async (running
`on_state_complete` with the result), then emit the result event. -/
def node_result (n : MNode) (seq : Int) (res : Int) : MNode × List MEvent :=
  let n0 := { n with lastError := res }
  let (n2, evs) :=
    if spaResultIsAsync seq then
      match work_queue_find n0.work (spaResultAsyncSeq seq) with
      | some (item, rest) =>
        on_state_complete { n0 with work := rest } item.state res
      | none => (n0, [])
    else (n0, [])
  (n2, evs ++ [MEvent.resultEvent seq res])

/-- `pw_node_set_driver` (`node.c:557-589`): NULL means self; no-op when
the driver is unchanged; otherwise recompute `master`, store the new
driver, emit driver-changed, point the Position io at the new driver's
activation and marshal the target-list move to the data loop. -/
def pw_node_set_driver (n : MNode) (driverArg : Option Nat) :
    Option (MNode × Int × List MEvent) :=
  let driver := match driverArg with | none => n.id | some d => d
  let old := n.driverNode
  if old = driver then some (n, 0, [])
  else
    let n1 := { n with master := n.driver && decide (driver = n.id),
                       driverNode := driver }
    match n1.backend with
    | none => none
    | some b =>
      let n2 :=
        if 0 ≤ b.setIoPositionResult then
          { n1 with rtPosition := some (IoTarget.activationPosition driver) }
        else n1
      some (n2, 0,
        [MEvent.driverChanged old driver,
         MEvent.setIo IoKind.position (IoTarget.activationPosition driver),
         MEvent.invokeMoveNodes driver])

/-- `pw_node_set_implementation` (`node.c:1073-1105`): refuse a second
backend with -EEXIST; otherwise install callbacks and the listener and
point the backend's Position and Clock io channels at the node's own
activation record. -/
def pw_node_set_implementation (n : MNode) (b : Backend) :
    MNode × Int × List MEvent :=
  match n.backend with
  | some _ => (n, -EEXIST, [])
  | none =>
    let n1 := { n with backend := some b }
    let n2 :=
      if 0 ≤ b.setIoPositionResult then
        { n1 with rtPosition := some (IoTarget.activationPosition n.id) }
      else n1
    let n3 :=
      if 0 ≤ b.setIoClockResult then
        { n2 with rtClock := some (IoTarget.activationClock n.id) }
      else n2
    (n3, b.addListenerResult,
     [MEvent.setCallbacks, MEvent.addListener,
      MEvent.setIo IoKind.position (IoTarget.activationPosition n.id),
      MEvent.setIo IoKind.clock (IoTarget.activationClock n.id)])

/-- `pw_node_new` (`node.c:753-856`), the state-relevant tail: a fresh
node is in creating state with no backend and no ports, its properties
are scanned by `check_properties`, and then — after that scan —
`driver_node` is set to the node itself and `master` to true
(`node.c:842-844`). -/
def pw_node_new (id : Nat) (props : List (String × String)) : MNode :=
  let pn := check_properties
    { properties := props, pauseOnIdle := true, driver := false,
      inDriverList := false, quantumSize := 0 }
  { id := id,
    infoState := PwNodeState.creating,
    infoError := none, changeMask := 0,
    active := false,
    pauseOnIdle := pn.pauseOnIdle,
    driver := pn.driver,
    master := true,
    driverNode := id,
    backend := none,
    inputPorts := [], outputPorts := [],
    nReadyOutputLinks := 0, nUsedOutputLinks := 0,
    nReadyInputLinks := 0, nUsedInputLinks := 0,
    properties := props,
    quantumSize := pn.quantumSize,
    inDriverList := pn.inDriverList,
    rtPosition := none, rtClock := none,
    work := [], lastError := 0 }

/-! ## Claims about the main-thread operations -/

/-- C9: `pw_node_set_implementation` fails with -EEXIST and leaves the
node unchanged when a backend is already attached; on first attachment it
installs the callback and listener bundles and directs the backend's
Position and Clock io channels at the position and clock fields of the
node's own activation record. -/
theorem set_implementation_spec (n : MNode) (b : Backend) :
    (n.backend ≠ none → pw_node_set_implementation n b = (n, -EEXIST, [])) ∧
    (n.backend = none →
      (pw_node_set_implementation n b).1.backend = some b ∧
      (pw_node_set_implementation n b).2.1 = b.addListenerResult ∧
      (pw_node_set_implementation n b).2.2 =
        [MEvent.setCallbacks, MEvent.addListener,
         MEvent.setIo IoKind.position (IoTarget.activationPosition n.id),
         MEvent.setIo IoKind.clock (IoTarget.activationClock n.id)]) := by
  constructor
  · intro h
    cases hb : n.backend with
    | none => exact absurd hb h
    | some b0 => simp [pw_node_set_implementation, hb]
  · intro h
    refine ⟨?_, ?_, ?_⟩
    · simp only [pw_node_set_implementation, h]
      split <;> split <;> rfl
    · simp [pw_node_set_implementation, h]
    · simp [pw_node_set_implementation, h]

def zeroBackend : Backend :=
  { pauseResult := 0, startResult := 0, addListenerResult := 0,
    setIoPositionResult := 0, setIoClockResult := 0, syncResult := 0 }

theorem set_implementation_spec_witness :
    ((pw_node_new 4 []).backend = none) ∧
    ((pw_node_set_implementation (pw_node_new 4 []) zeroBackend).1.backend =
        some zeroBackend ∧
     (pw_node_set_implementation (pw_node_new 4 []) zeroBackend).2.1 =
        zeroBackend.addListenerResult ∧
     (pw_node_set_implementation (pw_node_new 4 []) zeroBackend).2.2 =
        [MEvent.setCallbacks, MEvent.addListener,
         MEvent.setIo IoKind.position (IoTarget.activationPosition (pw_node_new 4 []).id),
         MEvent.setIo IoKind.clock (IoTarget.activationClock (pw_node_new 4 []).id)]) :=
  ⟨by decide, (set_implementation_spec (pw_node_new 4 []) zeroBackend).2 (by decide)⟩

/-- C10: a NULL driver argument to `pw_node_set_driver` behaves exactly
as passing the node itself, and when the requested driver already equals
the current `driver_node` the call returns 0 with no emitted events — in
particular no driver-changed event and no target-entry move. -/
theorem set_driver_null_and_noop (n : MNode) (d : Nat) :
    pw_node_set_driver n none = pw_node_set_driver n (some n.id) ∧
    (n.driverNode = d → pw_node_set_driver n (some d) = some (n, 0, [])) := by
  constructor
  · rfl
  · intro h
    simp [pw_node_set_driver, h]

theorem set_driver_null_and_noop_witness :
    ((pw_node_new 4 []).driverNode = 4) ∧
    (pw_node_set_driver (pw_node_new 4 []) none =
        pw_node_set_driver (pw_node_new 4 []) (some (pw_node_new 4 []).id) ∧
     (pw_node_set_driver (pw_node_new 4 []) (some 4) =
        some (pw_node_new 4 [], 0, []))) :=
  ⟨by decide,
   ⟨(set_driver_null_and_noop (pw_node_new 4 []) 4).1,
    (set_driver_null_and_noop (pw_node_new 4 []) 4).2 (by decide)⟩⟩

/-- C6 counterexample: a node freshly created by `pw_node_new` with no
`node.driver` property has `master = true`, `driver = false` and
`driver_node = self`, so `master` is NOT equivalent to
(`driver_node == self` ∧ driver flag): `pw_node_new` sets `master := true`
unconditionally (`node.c:844`) after `check_properties` left the driver
flag false. -/
theorem node_new_master_invariant_cex :
    (pw_node_new 7 []).master = true ∧
    (pw_node_new 7 []).driver = false ∧
    (pw_node_new 7 []).driverNode = (pw_node_new 7 []).id ∧
    ¬ ((pw_node_new 7 []).master =
        ((pw_node_new 7 []).driver &&
         decide ((pw_node_new 7 []).driverNode = (pw_node_new 7 []).id))) := by
  decide

/-- C6 (amended): every completed `pw_node_set_driver` call establishes
(and hence preserves) the equivalence `master = (driver flag ∧
driver_node == self)`; `pw_node_new`, by contrast, unconditionally sets
`master := true` and `driver_node := self` regardless of the driver
flag, so a fresh node satisfies the equivalence only when its
`node.driver` property made the flag true. -/
theorem set_driver_master_invariant (n : MNode) (driverArg : Option Nat)
    (n2 : MNode) (res : Int) (evs : List MEvent)
    (h : pw_node_set_driver n driverArg = some (n2, res, evs))
    (hold : n.master = (n.driver && decide (n.driverNode = n.id))) :
    (n2.master = (n2.driver && decide (n2.driverNode = n2.id))) ∧
    ∀ (i : Nat) (props : List (String × String)),
      (pw_node_new i props).master = true ∧
      (pw_node_new i props).driverNode = (pw_node_new i props).id := by
  refine ⟨?_, fun i props => ⟨rfl, rfl⟩⟩
  simp only [pw_node_set_driver] at h
  split at h
  · rename_i heq
    injection h with h2
    injection h2 with ha hb
    subst ha
    exact hold
  · split at h
    · exact absurd h (by simp)
    · rename_i b hb
      split at h <;>
      · injection h with h2
        injection h2 with ha _
        subst ha
        simp

def c6DriverNode : MNode := pw_node_new 9 [("node.driver", "true")]

theorem set_driver_master_invariant_witness :
    (pw_node_set_driver c6DriverNode (some 9) = some (c6DriverNode, 0, []) ∧
     c6DriverNode.master = (c6DriverNode.driver &&
        decide (c6DriverNode.driverNode = c6DriverNode.id))) ∧
    ((c6DriverNode.master = (c6DriverNode.driver &&
         decide (c6DriverNode.driverNode = c6DriverNode.id))) ∧
     ∀ (i : Nat) (props : List (String × String)),
       (pw_node_new i props).master = true ∧
       (pw_node_new i props).driverNode = (pw_node_new i props).id) :=
  ⟨⟨by decide, by decide⟩,
   set_driver_master_invariant c6DriverNode (some 9) c6DriverNode 0 []
     (by decide) (by decide)⟩

def c4Node : MNode := pw_node_new 1 []

/-- C4 counterexample: a creating node with no backend (and no ports) DOES
transition out of creating: `pw_node_set_state(node, SUSPENDED)` reaches
`suspend_node`, which calls `node_update_state(this, SUSPENDED, NULL)`
unconditionally (`node.c:309`) without any backend-presence check, so the
call returns 0 with `info.state` synchronously equal to suspended. -/
theorem set_state_no_backend_leaves_creating_cex :
    c4Node.infoState = PwNodeState.creating ∧
    c4Node.backend = none ∧
    ((pw_node_set_state c4Node PwNodeState.suspended).map
        fun r => (r.1.infoState, r.2.1)) =
      some (PwNodeState.suspended, 0) ∧
    ((pw_node_set_state c4Node PwNodeState.suspended).map
        fun r => r.1.infoState) ≠ some PwNodeState.creating := by
  decide

theorem node_update_state_infoState (n : MNode) (s : PwNodeState)
    (e : Option String) (h : ¬ n.infoState = s) :
    (node_update_state n s e).1.infoState = s := by
  rw [node_update_state, if_neg h]
  simp only [emit_info_changed]
  split <;> rfl

theorem pw_work_queue_add_infoState (n : MNode) (r : Int) (s : PwNodeState) :
    (pw_work_queue_add n r s).infoState = n.infoState := by
  rw [pw_work_queue_add]
  split <;> rfl

/-- C4 (amended): a node with no backend CAN transition out of creating.
For a creating node with no backend and no ports,
`pw_node_set_state(node, SUSPENDED)` returns 0 and synchronously sets
`info.state` to suspended: `pw_node_set_state` performs no
backend-presence check and `suspend_node` updates the state
unconditionally. -/
theorem set_state_suspend_no_backend (n : MNode)
    (_hb : n.backend = none) (hs : n.infoState = PwNodeState.creating)
    (hip : n.inputPorts = []) (hop : n.outputPorts = []) :
    ∃ n2 evs, pw_node_set_state n PwNodeState.suspended = some (n2, 0, evs) ∧
      n2.infoState = PwNodeState.suspended := by
  have hne : ¬ (n.infoState = PwNodeState.suspended) := by rw [hs]; decide
  have hsp : suspend_node n =
      some ((node_update_state
               { n with inputPorts := [], outputPorts := [] }
               PwNodeState.suspended none).1, 0,
            (node_update_state
               { n with inputPorts := [], outputPorts := [] }
               PwNodeState.suspended none).2) := by
    rw [suspend_node, hip, hop]
    simp only [suspendPorts, List.nil_append]
  have hbr : set_state_branch n PwNodeState.suspended = suspend_node n := rfl
  rw [pw_node_set_state, if_neg hne, hbr, hsp]
  simp only [show spaResultIsError 0 = false from rfl,
             show spaResultIsAsync 0 = false from rfl,
             Bool.false_eq_true, if_false]
  refine ⟨_, _, rfl, ?_⟩
  rw [pw_work_queue_add_infoState]
  exact node_update_state_infoState _ _ _ hne

theorem set_state_suspend_no_backend_witness :
    (c4Node.backend = none ∧ c4Node.infoState = PwNodeState.creating ∧
     c4Node.inputPorts = [] ∧ c4Node.outputPorts = []) ∧
    (∃ n2 evs, pw_node_set_state c4Node PwNodeState.suspended =
        some (n2, 0, evs) ∧ n2.infoState = PwNodeState.suspended) :=
  ⟨⟨by decide, by decide, by decide, by decide⟩,
   set_state_suspend_no_backend c4Node (by decide) (by decide)
     (by decide) (by decide)⟩

theorem set_state_branch_running (n : MNode) (ha : n.active = true)
    (n2 : MNode) (res : Int) (evsS : List MEvent)
    (hst : start_node n = some (n2, res, evsS)) :
    set_state_branch n PwNodeState.running =
      some (n2, res, node_activate_events n ++ evsS) := by
  simp only [set_state_branch, ha, if_true, hst]

theorem start_not_in_activate (n : MNode) :
    MEvent.sendCommand Cmd.start ∉ node_activate_events n := by
  intro h
  rcases List.mem_append.mp h with h1 | h1 <;>
  · obtain ⟨l, hl, hm⟩ := List.mem_flatten.mp h1
    obtain ⟨p, _, rfl⟩ := List.mem_map.mp hl
    obtain ⟨x, _, hx⟩ := List.mem_map.mp hm
    exact MEvent.noConfusion hx

/-- C3: for an active node whose state is below running,
`pw_node_set_state(node, RUNNING)` sends the Start command to the backend
exactly when `n_ready_output_links == n_used_output_links` and
`n_ready_input_links == n_used_input_links`; when the counts differ the
call returns 0 without sending Start — the transition is deferred, not
rejected. -/
theorem set_state_running_gates_start (n : MNode) (b : Backend)
    (hb : n.backend = some b) (ha : n.active = true)
    (hs : n.infoState.val < PwNodeState.running.val) :
    (∃ n2 res evs, pw_node_set_state n PwNodeState.running = some (n2, res, evs) ∧
      (MEvent.sendCommand Cmd.start ∈ evs ↔
        (n.nReadyOutputLinks = n.nUsedOutputLinks ∧
         n.nReadyInputLinks = n.nUsedInputLinks))) ∧
    ((n.nReadyOutputLinks ≠ n.nUsedOutputLinks ∨
      n.nReadyInputLinks ≠ n.nUsedInputLinks) →
      ∃ n2 evs, pw_node_set_state n PwNodeState.running = some (n2, 0, evs) ∧
        MEvent.sendCommand Cmd.start ∉ evs) := by
  have hne : ¬ (n.infoState = PwNodeState.running) := by
    intro h
    rw [h] at hs
    exact absurd hs (by decide)
  have hval : ¬ (PwNodeState.running.val ≤ n.infoState.val) := by omega
  by_cases hm : (n.nReadyOutputLinks ≠ n.nUsedOutputLinks ∨
                 n.nReadyInputLinks ≠ n.nUsedInputLinks)
  · -- deferred: counts differ, start_node returns 0 without Start
    have hst : start_node n = some (n, 0, []) := by
      rw [start_node, if_neg hval, if_pos hm]
    have hbr := set_state_branch_running n ha n 0 [] hst
    have hnotin : MEvent.sendCommand Cmd.start ∉
        MEvent.stateRequest PwNodeState.running ::
          (node_activate_events n ++ []) := by
      intro hmem
      rcases List.mem_cons.mp hmem with h1 | h1
      · exact MEvent.noConfusion h1
      · rw [List.append_nil] at h1
        exact start_not_in_activate n h1
    rw [pw_node_set_state, if_neg hne, hbr]
    simp only [show spaResultIsError 0 = false from rfl,
               show spaResultIsAsync 0 = false from rfl,
               Bool.false_eq_true, if_false]
    constructor
    · refine ⟨_, _, _, rfl, iff_of_false hnotin ?_⟩
      rintro ⟨h1, h2⟩
      rcases hm with h | h
      · exact h h1
      · exact h h2
    · intro _
      exact ⟨_, _, rfl, hnotin⟩
  · -- counts match: Start is sent
    have hmm : n.nReadyOutputLinks = n.nUsedOutputLinks ∧
        n.nReadyInputLinks = n.nUsedInputLinks := by
      constructor
      · by_contra h; exact hm (Or.inl h)
      · by_contra h; exact hm (Or.inr h)
    have hst : start_node n =
        some (n, b.startResult, [MEvent.sendCommand Cmd.start]) := by
      rw [start_node, if_neg hval, if_neg hm, hb]
    have hbr := set_state_branch_running n ha n b.startResult
      [MEvent.sendCommand Cmd.start] hst
    have hmem : MEvent.sendCommand Cmd.start ∈
        MEvent.stateRequest PwNodeState.running ::
          (node_activate_events n ++ [MEvent.sendCommand Cmd.start]) := by
      simp
    constructor
    · rw [pw_node_set_state, if_neg hne, hbr]
      by_cases he : spaResultIsError b.startResult = true
      · simp only [he, if_true]
        exact ⟨_, _, _, rfl, iff_of_true hmem hmm⟩
      · rw [Bool.not_eq_true] at he
        simp only [he, Bool.false_eq_true, if_false]
        by_cases hy : spaResultIsAsync b.startResult = true
        · simp only [hy, if_true, hb]
          refine ⟨_, _, _, rfl, iff_of_true ?_ hmm⟩
          exact List.mem_append.mpr (Or.inl hmem)
        · rw [Bool.not_eq_true] at hy
          simp only [hy, Bool.false_eq_true, if_false]
          exact ⟨_, _, _, rfl, iff_of_true hmem hmm⟩
    · intro hcon
      rcases hcon with h | h
      · exact absurd hmm.1 h
      · exact absurd hmm.2 h

def c3Node : MNode :=
  { pw_node_new 2 [] with
    backend := some zeroBackend,
    infoState := PwNodeState.idle,
    active := true,
    nReadyOutputLinks := 0, nUsedOutputLinks := 1 }

theorem set_state_running_gates_start_witness :
    (c3Node.backend = some zeroBackend ∧ c3Node.active = true ∧
     c3Node.infoState.val < PwNodeState.running.val) ∧
    ((∃ n2 res evs,
        pw_node_set_state c3Node PwNodeState.running = some (n2, res, evs) ∧
        (MEvent.sendCommand Cmd.start ∈ evs ↔
          (c3Node.nReadyOutputLinks = c3Node.nUsedOutputLinks ∧
           c3Node.nReadyInputLinks = c3Node.nUsedInputLinks))) ∧
     ((c3Node.nReadyOutputLinks ≠ c3Node.nUsedOutputLinks ∨
       c3Node.nReadyInputLinks ≠ c3Node.nUsedInputLinks) →
       ∃ n2 evs,
         pw_node_set_state c3Node PwNodeState.running = some (n2, 0, evs) ∧
         MEvent.sendCommand Cmd.start ∉ evs)) :=
  ⟨⟨by decide, by decide, by decide⟩,
   set_state_running_gates_start c3Node zeroBackend
     (by decide) (by decide) (by decide)⟩

theorem or_mask_ne_zero (m : Nat) : m ||| PW_NODE_CHANGE_MASK_STATE ≠ 0 := by
  intro h0
  have hb : (m ||| PW_NODE_CHANGE_MASK_STATE).testBit 2 = true := by
    rw [Nat.testBit_or]
    have h4 : PW_NODE_CHANGE_MASK_STATE.testBit 2 = true := by decide
    simp [h4]
  rw [h0] at hb
  exact absurd hb (by decide)

/-- C5: an asynchronous backend result completing a pending state-change
work-queue entry with an error drives the node into the error state: the
sequence's entry is matched and removed, `info.state` becomes error,
`info.error` records the formatted error string, and listeners receive a
state-changed event carrying that string followed by an info-changed
notification (and the result event itself). -/
theorem node_result_async_error (n : MNode) (seq res : Int)
    (item : WorkItem) (rest : List WorkItem)
    (hasync : spaResultIsAsync seq = true)
    (herr : res < 0)
    (hfind : work_queue_find n.work (spaResultAsyncSeq seq) = some (item, rest))
    (hold : ¬ n.infoState = PwNodeState.error) :
    (node_result n seq res).1.infoState = PwNodeState.error ∧
    (node_result n seq res).1.infoError = some (stateCompleteError res) ∧
    (node_result n seq res).1.work = rest ∧
    (node_result n seq res).2 =
      [MEvent.stateChanged n.infoState PwNodeState.error
         (some (stateCompleteError res)),
       MEvent.infoChanged,
       MEvent.resultEvent seq res] := by
  have herr2 : spaResultIsError res = true := by
    simp [spaResultIsError, herr]
  rw [node_result]
  simp only [hasync, if_true, hfind, on_state_complete, herr2]
  rw [node_update_state, if_neg hold]
  refine ⟨?_, ?_, ?_, ?_⟩ <;>
    simp [emit_info_changed, if_neg (or_mask_ne_zero _)]

def c5Node : MNode :=
  { pw_node_new 2 [] with
    infoState := PwNodeState.idle,
    work := [{ seq := some 7, res := 0, state := PwNodeState.running }] }

theorem node_result_async_error_witness :
    (spaResultIsAsync (1073741831 : Int) = true ∧ (-5 : Int) < 0 ∧
     work_queue_find c5Node.work (spaResultAsyncSeq (1073741831 : Int)) =
       some ({ seq := some 7, res := 0, state := PwNodeState.running }, []) ∧
     ¬ c5Node.infoState = PwNodeState.error) ∧
    ((node_result c5Node 1073741831 (-5)).1.infoState = PwNodeState.error ∧
     (node_result c5Node 1073741831 (-5)).1.infoError =
       some (stateCompleteError (-5)) ∧
     (node_result c5Node 1073741831 (-5)).1.work = [] ∧
     (node_result c5Node 1073741831 (-5)).2 =
       [MEvent.stateChanged c5Node.infoState PwNodeState.error
          (some (stateCompleteError (-5))),
        MEvent.infoChanged,
        MEvent.resultEvent 1073741831 (-5)]) :=
  ⟨⟨by decide, by decide, by decide, by decide⟩,
   node_result_async_error c5Node 1073741831 (-5)
     { seq := some 7, res := 0, state := PwNodeState.running } []
     (by decide) (by decide) (by decide) (by decide)⟩

end PW
